import Mathlib

/-!
Shallow embedding of elyra/metadata/metadata_app_utils.py: the Option model,
the schema-to-options compiler, the argv ingestor and the CLI option resolver.
Python dictionaries are embedded as insertion-ordered association lists, Python
values as the inductive type Value, and process exits (log_and_exit or an
uncaught exception) as the error side of Except.
-/

namespace Elyra

/-- Embedding of the Python values flowing through the module: JSON data loaded
from a file, raw CLI strings, None, and coerced option values.  Value.float
carries the source text passed to the float constructor; no claim in this
development depends on float arithmetic or on malformed float literals. -/
inductive Value : Type where
  | vnone : Value
  | vbool : Bool → Value
  | vint : Int → Value
  | vfloat : String → Value
  | vstr : String → Value
  | vlist : List Value → Value
  | vdict : List (String × Value) → Value

mutual

/-- Python equality (==) between embedded values, used for one_of membership.
Structural; Python's cross-type numeric equalities (True == 1) are not needed
by any claim and are not modelled. -/
def Value.beq : Value → Value → Bool
  | Value.vnone, Value.vnone => true
  | Value.vbool a, Value.vbool b => a == b
  | Value.vint a, Value.vint b => a == b
  | Value.vfloat a, Value.vfloat b => a == b
  | Value.vstr a, Value.vstr b => a == b
  | Value.vlist as, Value.vlist bs => Value.beqList as bs
  | Value.vdict as, Value.vdict bs => Value.beqDict as bs
  | _, _ => false

/-- Elementwise Python equality of lists. -/
def Value.beqList : List Value → List Value → Bool
  | [], [] => true
  | a :: as, b :: bs => Value.beq a b && Value.beqList as bs
  | _, _ => false

/-- Entrywise Python equality of dicts (as ordered association lists). -/
def Value.beqDict : List (String × Value) → List (String × Value) → Bool
  | [], [] => true
  | (ka, a) :: as, (kb, b) :: bs => ka == kb && Value.beq a b && Value.beqDict as bs
  | _, _ => false

end

/-- Python identity test `v is None`. -/
def Value.isNone : Value → Bool
  | Value.vnone => true
  | _ => false

/-- Python truthiness (bool(v)) for embedded values.  For floats, the literal
text is inspected: a text made of signs, dots and the digit zero denotes 0.0. -/
def truthy : Value → Bool
  | Value.vnone => false
  | Value.vbool b => b
  | Value.vint n => n != 0
  | Value.vfloat r => !(r.toList.all fun c => c == '0' || c == '.' || c == '-' || c == '+')
  | Value.vstr s => s != ""
  | Value.vlist vs => !vs.isEmpty
  | Value.vdict kvs => !kvs.isEmpty

/-- Lookup in an insertion-ordered association list (Python dict `get`). -/
def alGet {α : Type} (m : List (String × α)) (k : String) : Option α :=
  (m.find? fun kv => kv.1 == k).map fun kv => kv.2

/-- Lookup with a default (Python dict `get(k, d)`). -/
def alGetD {α : Type} (m : List (String × α)) (k : String) (d : α) : α :=
  (alGet m k).getD d

/-- Key-presence test (Python `k in d.keys()`). -/
def alHasKey {α : Type} (m : List (String × α)) (k : String) : Bool :=
  m.any fun kv => kv.1 == k

/-- Python dict assignment `d[k] = v`: update in place when the key exists
(keeping its position), append otherwise. -/
def alInsert {α : Type} (m : List (String × α)) (k : String) (v : α) : List (String × α) :=
  if alHasKey m k then m.map fun kv => if kv.1 == k then (k, v) else kv
  else m ++ [(k, v)]

/-- Python dict `pop(k)`: remove the (unique) entry with the given key. -/
def alErase {α : Type} (m : List (String × α)) (k : String) : List (String × α) :=
  m.eraseP fun kv => kv.1 == k

/-- Python dict `d.update(d2)`. -/
def alUpdate {α : Type} (m m2 : List (String × α)) : List (String × α) :=
  m2.foldl (fun acc kv => alInsert acc kv.1 kv.2) m

/-- In-place mutation of the object stored at a key (used for
`options.get(name).required = True` in schema_to_options). -/
def alModify {α : Type} (m : List (String × α)) (k : String) (f : α → α) : List (String × α) :=
  m.map fun kv => if kv.1 == k then (kv.1, f kv.2) else kv

/-- Python repr() of an embedded value.  String escaping inside containers is
approximated by plain quoting; no claim depends on container rendering. -/
def pyRepr : Value → String
  | Value.vnone => "None"
  | Value.vbool b => if b then "True" else "False"
  | Value.vint n => toString n
  | Value.vfloat r => r
  | Value.vstr s => "'" ++ s ++ "'"
  | Value.vlist vs => "[" ++ String.intercalate ", " (pyReprList vs) ++ "]"
  | Value.vdict kvs => "\x7b" ++ String.intercalate ", " (pyReprDict kvs) ++ "\x7d"
where
  pyReprList : List Value → List String
    | [] => []
    | v :: rest => pyRepr v :: pyReprList rest
  pyReprDict : List (String × Value) → List String
    | [] => []
    | (k, v) :: rest => ("'" ++ k ++ "': " ++ pyRepr v) :: pyReprDict rest

/-- Python str() of an embedded value (equals repr except on strings). -/
def pyStr : Value → String
  | Value.vstr s => s
  | v => pyRepr v

/-- Kernel-friendly character-level test of one list being an initial run of
another (second argument is the candidate initial run). -/
def charsStartWith : List Char → List Char → Bool
  | _, [] => true
  | [], _ :: _ => false
  | c :: cs, p :: ps => c == p && charsStartWith cs ps

/-- Python s.startswith(pre). -/
def strStartsWith (s pre : String) : Bool :=
  charsStartWith s.toList pre.toList

/-- Python `c in s` for a single character. -/
def strContainsChar (s : String) (c : Char) : Bool :=
  s.toList.any fun x => x == c

/-- Python int() applied to a decimal string; raises ValueError on
non-numeric text.  Underscore separators and non-ASCII digits accepted by
Python are not modelled (no claim uses them). -/
def pyIntOfString (s : String) : Except String Value :=
  match s.trim.toInt? with
  | Option.some n => Except.ok (Value.vint n)
  | Option.none => Except.error "ValueError"

/-- Python int() applied to an embedded value.  Truncation of floats is not
modelled (set_value only ever receives strings or None from the mapping). -/
def pyInt : Value → Except String Value
  | Value.vstr s => pyIntOfString s
  | Value.vint n => Except.ok (Value.vint n)
  | Value.vbool b => Except.ok (Value.vint (if b then 1 else 0))
  | _ => Except.error "TypeError"

/-- Option.set_value: coerce a raw mapped value into the option's value
according to its type field.  The argument le embeds ast.literal_eval (a
standard-library function outside this repository), which may raise; the
array/object branch applies it to string input and raises on anything else.
Malformed float text in the number branch is carried verbatim (see
Value.vfloat). -/
def set_value (le : String → Except String Value) (ty : Value) (value : Value) :
    Except String Value :=
  if Value.beq ty (Value.vstr "array") || Value.beq ty (Value.vstr "object") then
    match value with
    | Value.vstr s => le s
    | _ => Except.error "ValueError"
  else if Value.beq ty (Value.vstr "integer") then
    pyInt value
  else if Value.beq ty (Value.vstr "number") then
    match value with
    | Value.vstr s =>
      if strContainsChar s '.' then Except.ok (Value.vfloat s) else pyIntOfString s
    | _ => Except.error "TypeError"
  else if Value.beq ty (Value.vstr "boolean") then
    match value with
    | Value.vbool b => Except.ok (Value.vbool b)
    | v =>
      let s := (pyStr v).toLower
      if s == "true" || s == "1" then Except.ok (Value.vbool true)
      else if s == "false" || s == "0" then Except.ok (Value.vbool false)
      else Except.ok v
  else if Value.beq ty (Value.vstr "null") then
    if pyStr value == "null" || pyStr value == "None" then Except.ok Value.vnone
    else Except.ok value
  else
    Except.ok value

/-- Class discriminator for the Option hierarchy (Option/CliOption, Flag,
SchemaProperty, MetadataSchemaProperty); the resolver only dispatches on
isinstance(_, Flag), the schema compiler on the level of nesting. -/
inductive OptKind : Type where
  | plain : OptKind
  | flag : OptKind
  | schemaProp : OptKind
  | metadataSchemaProp : OptKind
deriving DecidableEq

/-- Embedding of the Option class and its subclasses.  The name field is the
dotted logical name (Python allows None there; every option the claims touch
carries a name, so it is embedded as a plain string).  The schema_property
fragment kept by SchemaProperty is only used for help rendering and is not
embedded. -/
structure Opt where
  kind : OptKind
  cli_option : String
  name : String
  description : Value
  default_value : Value
  value : Value
  one_of : Option (List Value)
  required : Bool
  type : Value
  processed : Bool

/-- Option.__init__: the current value is seeded from the default value and
processed starts false. -/
def mkOption (kind : OptKind) (cli_option : String) (nm : String) (description : Value)
    (default_value : Value) (one_of : Option (List Value)) (required : Bool)
    (ty : Value) : Opt :=
  { kind := kind, cli_option := cli_option, name := nm, description := description,
    default_value := default_value, value := default_value, one_of := one_of,
    required := required, type := ty, processed := false }

/-- CliOption.__init__ (passes everything through to Option.__init__). -/
def mkCliOption (cli_option : String) (nm : String) (description : Value)
    (default_value : Value) (one_of : Option (List Value)) (required : Bool)
    (ty : Value) : Opt :=
  mkOption OptKind.plain cli_option nm description default_value one_of required ty

/-- Flag.__init__: a command-line flag, type fixed to boolean. -/
def mkFlag (flag : String) (nm : String) (description : Value) (default_value : Value)
    (one_of : Option (List Value)) (required : Bool) : Opt :=
  mkOption OptKind.flag flag nm description default_value one_of required
    (Value.vstr "boolean")

/-- SchemaProperty.__init__: built from one schema property stanza; the cli
token is the name with a leading double dash, and description, default and
type are read from the stanza (None when absent). -/
def mkSchemaProperty (nm : String) (schema_property : List (String × Value)) : Opt :=
  mkOption OptKind.schemaProp ("--" ++ nm) nm
    (alGetD schema_property "description" Value.vnone)
    (alGetD schema_property "default" Value.vnone)
    Option.none false (alGetD schema_property "type" Value.vnone)

/-- MetadataSchemaProperty.__init__ (same fields, different provenance). -/
def mkMetadataSchemaProperty (nm : String) (schema_property : List (String × Value)) : Opt :=
  mkOption OptKind.metadataSchemaProp ("--" ++ nm) nm
    (alGetD schema_property "description" Value.vnone)
    (alGetD schema_property "default" Value.vnone)
    Option.none false (alGetD schema_property "type" Value.vnone)

/-- The mutable per-invocation state of AppBase: the raw argument vector and
the derived argument mapping. -/
structure AppState where
  argv : List String
  argv_mappings : List (String × Value)

/-- Terminal outcomes of resolution: every constructor embeds one call of
log_and_exit in the source (or an uncaught Python exception for py_error). -/
inductive ResolveErr : Type where
  | missing_value : String → ResolveErr
  | invalid_choice : String → ResolveErr
  | missing_required : String → Bool → ResolveErr
  | cant_find_option : String → ResolveErr
  | unexpected_args : List String → ResolveErr
  | help_requested : ResolveErr
  | py_error : String → ResolveErr

/-- Exit status of each terminal outcome: every log_and_exit call reached by
the resolver uses the default exit_status of 1, and an uncaught Python
exception also terminates the process with status 1. -/
def ResolveErr.exit_status : ResolveErr → Nat :=
  fun _ => 1

/-- Whether the terminal outcome prints the help text: log_and_exit is called
with display_help=True on every resolver error except the internal
cant_find_option message, and an uncaught exception prints no help. -/
def ResolveErr.displays_help : ResolveErr → Bool
  | ResolveErr.missing_value _ => true
  | ResolveErr.invalid_choice _ => true
  | ResolveErr.missing_required _ _ => true
  | ResolveErr.cant_find_option _ => false
  | ResolveErr.unexpected_args _ => true
  | ResolveErr.help_requested => true
  | ResolveErr.py_error _ => false

/-- Python str.rsplit(sep, 1)[0]: everything before the last dot, the whole
string when no dot occurs. -/
def rsplit_before_last (s : String) : String :=
  let cs := s.toList
  if cs.any fun c => c == '.' then
    String.mk ((cs.reverse.dropWhile fun c => c != '.').drop 1).reverse
  else s

/-- The sibling search key of a dotted cli token: the token minus its last
segment, plus a trailing dot (sub_option_pre in required_value_is_missing). -/
def sibling_pre (cli : String) : String :=
  rsplit_before_last cli ++ "."

/-- AppBase.required_value_is_missing: besides the boolean verdict it returns
the (possibly mutated) option, since the no-sibling branch permanently clears
the required flag. -/
def required_value_is_missing (o : Opt) (st : AppState) : Bool × Opt :=
  if o.required && Value.isNone o.value then
    if !(strContainsChar o.name '.') then (true, o)
    else
      let pre := sibling_pre o.cli_option
      if st.argv_mappings.any (fun kv => strStartsWith kv.1 pre && !(Value.isNone kv.2)) then
        (true, o)
      else
        (false, { o with required := false })
  else (false, o)

/-- The elif one_of branch of process_cli_option: Python truthiness of the
one_of attribute (None and the empty list are both falsy) followed by the
membership test of the current value. -/
def one_of_failed (o : Opt) : Bool :=
  match o.one_of with
  | Option.some l => if l.isEmpty then false else !(l.any fun x => Value.beq x o.value)
  | Option.none => false

/-- AppBase._remove_argv_entry: rebuild the original token from the mapping
(name=value when the mapped value is truthy, requiring it to be a string, the
bare name otherwise), delete it from the vector when present, and pop the
mapping entry.  A missing key is the internal cant-find error. -/
def remove_argv_entry (st : AppState) (cli : String) : Except ResolveErr AppState :=
  if !(alHasKey st.argv_mappings cli) then
    Except.error (ResolveErr.cant_find_option cli)
  else
    let value := alGetD st.argv_mappings cli Value.vnone
    let entryE : Except ResolveErr String :=
      if truthy value then
        match value with
        | Value.vstr s => Except.ok (cli ++ "=" ++ s)
        | _ => Except.error (ResolveErr.py_error "TypeError")
      else Except.ok cli
    match entryE with
    | Except.error e => Except.error e
    | Except.ok entry =>
      let argv1 := if entry ∈ st.argv then st.argv.erase entry else st.argv
      Except.ok { argv := argv1, argv_mappings := alErase st.argv_mappings cli }

/-- AppBase.process_cli_option as invoked from the batch loop (check_help
defaults to False there, so the leading help check is skipped).  Returns the
updated option and state, or the terminal error. -/
def process_cli_option (le : String → Except String Value) (o : Opt) (st : AppState) :
    Except ResolveErr (Opt × AppState) :=
  if o.processed then Except.ok (o, st)
  else
    let token := o.cli_option
    if alHasKey st.argv_mappings token then
      if o.kind = OptKind.flag then
        let o1 : Opt := { o with value := Value.vbool (!(truthy o.default_value)) }
        match remove_argv_entry st token with
        | Except.error e => Except.error e
        | Except.ok st1 => Except.ok ({ o1 with processed := true }, st1)
      else
        match set_value le o.type (alGetD st.argv_mappings token Value.vnone) with
        | Except.error msg => Except.error (ResolveErr.py_error msg)
        | Except.ok newVal =>
          let o1 : Opt := { o with value := newVal }
          if o1.required && !(truthy o1.value) then
            Except.error (ResolveErr.missing_value o.cli_option)
          else if o1.required && one_of_failed o1 then
            Except.error (ResolveErr.invalid_choice o.cli_option)
          else
            match remove_argv_entry st token with
            | Except.error e => Except.error e
            | Except.ok st1 => Except.ok ({ o1 with processed := true }, st1)
    else
      match required_value_is_missing o st with
      | (true, _) => Except.error (ResolveErr.missing_required o.cli_option o.one_of.isSome)
      | (false, o1) => Except.ok ({ o1 with processed := true }, st)

/-- The for-loop of AppBase.process_cli_options: resolve each option in turn,
threading the state, stopping at the first terminal error. -/
def process_all (le : String → Except String Value) :
    List Opt → AppState → Except ResolveErr (List Opt × AppState)
  | [], st => Except.ok ([], st)
  | o :: rest, st =>
    match process_cli_option le o st with
    | Except.error e => Except.error e
    | Except.ok (o1, st1) =>
      match process_all le rest st1 with
      | Except.error e => Except.error e
      | Except.ok (os, st2) => Except.ok (o1 :: os, st2)

/-- AppBase.has_help: a help token is present among the mapping keys. -/
def has_help (st : AppState) : Bool :=
  alHasKey st.argv_mappings "--help" || alHasKey st.argv_mappings "-h"

/-- AppBase.process_cli_options: short-circuit to help when a help token is
mapped, resolve every option, then fail on any leftover arguments. -/
def process_cli_options (le : String → Except String Value) (opts : List Opt)
    (st : AppState) : Except ResolveErr (List Opt × AppState) :=
  if has_help st then Except.error ResolveErr.help_requested
  else
    match process_all le opts st with
    | Except.error e => Except.error e
    | Except.ok (os, st1) =>
      if st1.argv.length > 0 then Except.error (ResolveErr.unexpected_args st1.argv)
      else Except.ok (os, st1)

/-- The character recursion behind splitEq. -/
def splitEqAux : List Char → List Char → String × Option String
  | [], acc => (String.mk acc.reverse, Option.none)
  | c :: rest, acc =>
    if c == '=' then (String.mk acc.reverse, Option.some (String.mk rest))
    else splitEqAux rest (c :: acc)

/-- Python arg.split('=', 1): the option token before the first equals sign,
and the raw value after it (absent when the token has no equals sign). -/
def splitEq (arg : String) : String × Option String :=
  splitEqAux arg.toList []

/-- logging.getLogger().setLevel(value) on the raw mapped string: accepted
level names per the logging module; None or an unknown name raises. -/
def valid_log_level (v : Option String) : Bool :=
  match v with
  | Option.some s =>
    ["CRITICAL", "FATAL", "ERROR", "WARN", "WARNING", "INFO", "DEBUG", "NOTSET"].contains s
  | Option.none => false

/-- AppBase.load_argv_mappings_from_json: walk the items of a JSON object,
entering nested objects with a dotted name accumulator that a key literally
named metadata resets to None.  Mirrors the source exactly, including the
early return that abandons the remaining items of the current object as soon
as a dict-valued item is entered, and the TypeError on a non-dict value held
by a metadata key (string concatenation with None). -/
def load_argv_mappings_from_json :
    List (String × Value) → Option String → List (String × Value) →
    Except String (List (String × Value))
  | [], _, m => Except.ok m
  | (k, v) :: rest, pfx, m =>
    let prefixed_name : Option String :=
      if k != "metadata" then
        Option.some (match pfx with
          | Option.some p => if p != "" then p ++ "." ++ k else k
          | Option.none => k)
      else Option.none
    match v with
    | Value.vdict kvs => load_argv_mappings_from_json kvs prefixed_name m
    | _ =>
      match prefixed_name with
      | Option.some pn => load_argv_mappings_from_json rest pfx (alInsert m ("--" ++ pn) v)
      | Option.none => Except.error "TypeError"

/-- os.path.basename on a POSIX path. -/
def basename (p : String) : String :=
  String.mk (p.toList.reverse.takeWhile fun c => c != '/').reverse

/-- Python s.split('.')[0]: everything before the first dot. -/
def before_first_dot (s : String) : String :=
  String.mk (s.toList.takeWhile fun c => c != '.')

/-- AppBase.load_argv_mappings_from_file: the file system is passed in as a
function from file name to parsed JSON (None embeds an unreadable or
unparsable file, which the source lets raise).  A synthetic name entry from
the file's base name is added before the contents are flattened. -/
def load_argv_mappings_from_file (fs : String → Option Value) (filename : String)
    (m : List (String × Value)) : Except String (List (String × Value)) :=
  match fs filename with
  | Option.none => Except.error "InvalidInput"
  | Option.some md_json =>
    let m1 := alInsert m "--name" (Value.vstr (before_first_dot (basename filename)))
    match md_json with
    | Value.vdict kvs => load_argv_mappings_from_json kvs Option.none m1
    | _ => Except.error "AttributeError"

/-- The loop body of AppBase._get_argv_mappings: one left-to-right pass over
the vector, building the mapping and noting (in single variables, as the
source does) the most recent debug/log-level token and the most recent file
token for later removal. -/
def ingest_loop (fs : String → Option Value) :
    List String → List (String × Value) → Option String → Option String →
    Except String (List (String × Value) × Option String × Option String)
  | [], m, lo, fo => Except.ok (m, lo, fo)
  | arg :: rest, m, lo, fo =>
    let ov := splitEq arg
    if ov.1 == "--debug" then
      ingest_loop fs rest m (Option.some arg) fo
    else if ov.1 == "--log-level" then
      if valid_log_level ov.2 then ingest_loop fs rest m (Option.some arg) fo
      else Except.error "ValueError"
    else if ov.1 == "--file" then
      match ov.2 with
      | Option.some fn =>
        match load_argv_mappings_from_file fs fn m with
        | Except.error e => Except.error e
        | Except.ok m1 => ingest_loop fs rest m1 lo (Option.some arg)
      | Option.none => Except.error "TypeError"
    else
      ingest_loop fs rest
        (alInsert m ov.1 (match ov.2 with
          | Option.some s => Value.vstr s
          | Option.none => Value.vnone))
        lo fo

/-- AppBase._get_argv_mappings: run the ingest pass, then remove the noted
log token and file token (each a single list.remove, deleting the first
occurrence) from the original vector. -/
def get_argv_mappings (fs : String → Option Value) (argv : List String) :
    Except String AppState :=
  match ingest_loop fs argv [] Option.none Option.none with
  | Except.error e => Except.error e
  | Except.ok (m, lo, fo) =>
    let argv1 := match lo with
      | Option.some t => argv.erase t
      | Option.none => argv
    let argv2 := match fo with
      | Option.some t => argv1.erase t
      | Option.none => argv1
    Except.ok { argv := argv2, argv_mappings := m }

/-- The prefixed-name rule shared by the schema compiler's property loop and
its required-marking loop: prepend the dotted accumulated path unless it is
falsy or literally metadata. -/
def prefixed (pfx : Option String) (k : String) : String :=
  match pfx with
  | Option.some p => if p != "" && p != "metadata" then p ++ "." ++ k else k
  | Option.none => k

/-- The body of the required-marking loop in AppBase.schema_to_options: skip
the literal names schema_name and metadata, mark the option stored under the
prefixed name, and fail loudly (the source's AttributeError on None) when no
such option was emitted.  A non-string required name can match no emitted
key and likewise fails. -/
def mark_required_loop :
    List Value → List (String × Opt) → Option String → Except String (List (String × Opt))
  | [], opts, _ => Except.ok opts
  | r :: rest, opts, pfx =>
    if Value.beq r (Value.vstr "schema_name") || Value.beq r (Value.vstr "metadata") then
      mark_required_loop rest opts pfx
    else
      match r with
      | Value.vstr rn =>
        let pn := prefixed pfx rn
        if alHasKey opts pn then
          mark_required_loop rest (alModify opts pn fun o => { o with required := true }) pfx
        else Except.error "AttributeError"
      | _ => Except.error "TypeError"

/-- The required-marking step of AppBase.schema_to_options: schema.get with a
Python truthiness guard, then the marking loop over the iterable (a string
iterates its characters, a dict its keys; a truthy non-iterable raises). -/
def mark_required (req_props : Option Value) (opts : List (String × Opt))
    (pfx : Option String) : Except String (List (String × Opt)) :=
  match req_props with
  | Option.some (Value.vlist rs) =>
    if rs.isEmpty then Except.ok opts else mark_required_loop rs opts pfx
  | Option.some (Value.vstr s) =>
    if s.isEmpty then Except.ok opts
    else mark_required_loop (s.toList.map fun c => Value.vstr (String.singleton c)) opts pfx
  | Option.some (Value.vdict kvs) =>
    if kvs.isEmpty then Except.ok opts
    else mark_required_loop (kvs.map fun kv => Value.vstr kv.1) opts pfx
  | Option.some v => if truthy v then Except.error "TypeError" else Except.ok opts
  | Option.none => Except.ok opts

/-- Membership in an association list bounds the size of the stored value,
used for the termination of the schema compiler. -/
theorem sizeOf_lt_of_alGet {α : Type} [SizeOf α] {m : List (String × α)} {k : String}
    {v : α} (h : alGet m k = Option.some v) : sizeOf v < sizeOf m := by
  unfold alGet at h
  rcases Option.map_eq_some'.mp h with ⟨kv, hfind, hsnd⟩
  have hmem : kv ∈ m := List.mem_of_find?_eq_some hfind
  have hlt : sizeOf kv < sizeOf m := List.sizeOf_lt_of_mem hmem
  rcases kv with ⟨k1, v1⟩
  have hv : v1 = v := hsnd
  subst hv
  simp only [Prod.mk.sizeOf_spec] at hlt
  omega

mutual

/-- AppBase.schema_to_options: compile a schema fragment into the flat map of
dotted name to option.  A fragment with a properties map walks it through the
property loop, then applies required marking; a fragment without one emits a
single MetadataSchemaProperty keyed by the accumulated prefixed name (a None
prefixed name at top level would raise).  Non-dict fragments raise. -/
def schema_to_options (schema : Value) (level : Nat) (pfx : Option String) :
    Except String (List (String × Opt)) :=
  match schema with
  | Value.vdict s =>
    match h : alGet s "properties" with
    | Option.some (Value.vdict props) =>
      match schema_props_loop props level pfx [] with
      | Except.error e => Except.error e
      | Except.ok opts => mark_required (alGet s "required") opts pfx
    | Option.some _ => Except.error "AttributeError"
    | Option.none =>
      match pfx with
      | Option.some p => Except.ok [(p, mkMetadataSchemaProperty p s)]
      | Option.none => Except.error "TypeError"
  | _ => Except.error "TypeError"
termination_by sizeOf schema
decreasing_by
  have h2 := sizeOf_lt_of_alGet h
  simp only [Value.vdict.sizeOf_spec] at h2 ⊢
  omega

/-- The property loop of AppBase.schema_to_options: skip schema_name, recurse
into object-typed properties (merging their options with dict.update), and
emit a SchemaProperty at level 0 or a MetadataSchemaProperty below it.  A
property stanza that is not a dict or lacks a type key raises. -/
def schema_props_loop (props : List (String × Value)) (level : Nat) (pfx : Option String)
    (acc : List (String × Opt)) : Except String (List (String × Opt)) :=
  match props with
  | [] => Except.ok acc
  | (k, v) :: rest =>
    let pn := prefixed pfx k
    if k == "schema_name" then schema_props_loop rest level pfx acc
    else
      match v with
      | Value.vdict vd =>
        match alGet vd "type" with
        | Option.none => Except.error "KeyError"
        | Option.some t =>
          if Value.beq t (Value.vstr "object") then
            match schema_to_options (Value.vdict vd) (level + 1) (Option.some pn) with
            | Except.error e => Except.error e
            | Except.ok sub => schema_props_loop rest level pfx (alUpdate acc sub)
          else if level == 0 then
            schema_props_loop rest level pfx (alInsert acc pn (mkSchemaProperty pn vd))
          else
            schema_props_loop rest level pfx (alInsert acc pn (mkMetadataSchemaProperty pn vd))
      | _ => Except.error "TypeError"
termination_by sizeOf props
decreasing_by
  all_goals simp only [Value.vdict.sizeOf_spec, List.cons.sizeOf_spec, Prod.mk.sizeOf_spec]
  all_goals omega

end

/-! Helper lemmas connecting the association-list primitives, and concrete
instantiations used by the witnesses. -/

/-- A successful lookup implies the key-presence test succeeds. -/
theorem alHasKey_of_alGet {α : Type} {m : List (String × α)} {k : String} {v : α}
    (h : alGet m k = Option.some v) : alHasKey m k = true := by
  unfold alGet at h
  rcases Option.map_eq_some'.mp h with ⟨kv, hfind, -⟩
  have hmem := List.mem_of_find?_eq_some hfind
  have hp := List.find?_some hfind
  exact List.any_eq_true.mpr ⟨kv, hmem, hp⟩

/-- A successful lookup determines the defaulted lookup. -/
theorem alGetD_of_alGet {α : Type} {m : List (String × α)} {k : String} {v : α}
    (d : α) (h : alGet m k = Option.some v) : alGetD m k d = v := by
  unfold alGetD
  rw [h]
  rfl

/-- Whenever per-option resolution returns successfully, the returned option
has its processed flag set. -/
theorem process_ok_processed {le : String → Except String Value} {o : Opt} {st : AppState}
    {o' : Opt} {st' : AppState}
    (h : process_cli_option le o st = Except.ok (o', st')) : o'.processed = true := by
  unfold process_cli_option at h
  by_cases hp : o.processed = true
  · simp only [if_pos hp, Except.ok.injEq, Prod.mk.injEq] at h
    rw [← h.1]
    exact hp
  · simp only [if_neg hp] at h
    by_cases hk : alHasKey st.argv_mappings o.cli_option = true
    · simp only [if_pos hk] at h
      by_cases hf : o.kind = OptKind.flag
      · simp only [if_pos hf] at h
        rcases hr : remove_argv_entry st o.cli_option with e | st1 <;> rw [hr] at h
        · exact Except.noConfusion h
        · simp only [Except.ok.injEq, Prod.mk.injEq] at h
          rw [← h.1]
      · simp only [if_neg hf] at h
        rcases hs : set_value le o.type (alGetD st.argv_mappings o.cli_option Value.vnone)
          with msg | newVal <;> rw [hs] at h <;> dsimp only at h
        · exact Except.noConfusion h
        · by_cases h1 : (o.required && !truthy newVal) = true
          · rw [if_pos h1] at h
            exact Except.noConfusion h
          · rw [if_neg h1] at h
            by_cases h2 : (o.required && one_of_failed { o with value := newVal }) = true
            · rw [if_pos h2] at h
              exact Except.noConfusion h
            · rw [if_neg h2] at h
              rcases hr : remove_argv_entry st o.cli_option with e | st1 <;> rw [hr] at h
              · exact Except.noConfusion h
              · simp only [Except.ok.injEq, Prod.mk.injEq] at h
                rw [← h.1]
    · simp only [if_neg hk] at h
      rcases hm : required_value_is_missing o st with ⟨b, o1⟩
      rw [hm] at h
      cases b
      · simp only [Except.ok.injEq, Prod.mk.injEq] at h
        rw [← h.1]
      · exact Except.noConfusion h

/-- When the mapped value of a present key is a string or None (as every
value produced by CLI ingestion is), entry removal cannot fail. -/
theorem remove_ok_of_str_or_none {st : AppState} {k : String} {v : Value}
    (h : alGet st.argv_mappings k = Option.some v)
    (hv : (∃ s, v = Value.vstr s) ∨ v = Value.vnone) :
    ∃ st1, remove_argv_entry st k = Except.ok st1 := by
  have hk := alHasKey_of_alGet h
  have hd := alGetD_of_alGet Value.vnone h
  rcases hv with ⟨s, rfl⟩ | rfl
  · by_cases hs : s = ""
    · subst hs
      refine ⟨⟨if k ∈ st.argv then st.argv.erase k else st.argv,
        alErase st.argv_mappings k⟩, ?_⟩
      simp [remove_argv_entry, hk, hd, truthy]
    · refine ⟨⟨if (k ++ "=" ++ s) ∈ st.argv then st.argv.erase (k ++ "=" ++ s) else st.argv,
        alErase st.argv_mappings k⟩, ?_⟩
      simp [remove_argv_entry, hk, hd, truthy, hs]
  · refine ⟨⟨if k ∈ st.argv then st.argv.erase k else st.argv,
      alErase st.argv_mappings k⟩, ?_⟩
    simp [remove_argv_entry, hk, hd, truthy]

/-- Embedding of ast.literal_eval used only to instantiate the resolver at
concrete inputs whose types never reach the literal-eval branch. -/
def lit_eval_stub : String → Except String Value := fun s => Except.ok (Value.vstr s)

/-- An empty file system for concrete ingestion runs that use no file. -/
def fs_stub : String → Option Value := fun _ => Option.none

/-- C7: per-option resolution is idempotent: whenever it returns successfully,
running it again on the returned option and state is a no-op returning them
unchanged, because the returned option has processed set to true. -/
theorem C7_idempotent (le : String → Except String Value) (o : Opt) (st : AppState)
    (o' : Opt) (st' : AppState)
    (h : process_cli_option le o st = Except.ok (o', st')) :
    process_cli_option le o' st' = Except.ok (o', st') := by
  have hp := process_ok_processed h
  unfold process_cli_option
  simp [hp]

/-- Concrete option for the C7 witness. -/
def c7_opt : Opt :=
  mkCliOption "--name" "name" Value.vnone Value.vnone Option.none true (Value.vstr "string")

/-- Concrete state for the C7 witness. -/
def c7_st : AppState := ⟨["--name=foo"], [("--name", Value.vstr "foo")]⟩

/-- Concrete resolved option for the C7 witness. -/
def c7_opt1 : Opt := { c7_opt with value := Value.vstr "foo", processed := true }

/-- Witness for C7: a concrete successful resolution, and the theorem applied
to it showing the second run returns the same option and state. -/
theorem C7_witness :
    process_cli_option lit_eval_stub c7_opt c7_st = Except.ok (c7_opt1, ⟨[], []⟩) ∧
    process_cli_option lit_eval_stub c7_opt1 ⟨[], []⟩ = Except.ok (c7_opt1, ⟨[], []⟩) :=
  ⟨rfl, C7_idempotent lit_eval_stub c7_opt c7_st c7_opt1 ⟨[], []⟩ rfl⟩

/-- C10: the missing-required check fires only on a None value; because the
value is seeded from the default at construction, a required option whose
default is not None is never reported missing when its token is absent from
the mapping — resolution silently succeeds keeping the default value. -/
theorem C10_default_shields_required (le : String → Except String Value)
    (cli nm : String) (description dflt : Value) (one_of : Option (List Value))
    (required : Bool) (ty : Value) (st : AppState)
    (hd : Value.isNone dflt = false)
    (habs : alHasKey st.argv_mappings cli = false) :
    process_cli_option le (mkCliOption cli nm description dflt one_of required ty) st =
      Except.ok ({ mkCliOption cli nm description dflt one_of required ty with
        processed := true }, st) ∧
    (mkCliOption cli nm description dflt one_of required ty).value = dflt := by
  constructor
  · unfold process_cli_option
    simp [mkCliOption, mkOption, habs, required_value_is_missing, hd]
  · rfl

/-- Witness for C10 at a concrete required option with a non-None default and
an empty mapping. -/
theorem C10_witness :
    Value.isNone (Value.vstr "d") = false ∧
    alHasKey ([] : List (String × Value)) "--n" = false ∧
    (process_cli_option lit_eval_stub
        (mkCliOption "--n" "n" Value.vnone (Value.vstr "d") Option.none true (Value.vstr "string"))
        ⟨[], []⟩ =
      Except.ok ({ mkCliOption "--n" "n" Value.vnone (Value.vstr "d") Option.none true
        (Value.vstr "string") with processed := true }, (⟨[], []⟩ : AppState)) ∧
    (mkCliOption "--n" "n" Value.vnone (Value.vstr "d") Option.none true
      (Value.vstr "string")).value = Value.vstr "d") :=
  ⟨rfl, rfl, C10_default_shields_required lit_eval_stub "--n" "n" Value.vnone (Value.vstr "d")
    Option.none true (Value.vstr "string") ⟨[], []⟩ rfl rfl⟩

/-- C6: Flag semantics: a present flag token sets the value to the negation of
the boolean default whatever literal text follows the equals sign (the
resolver assigns it directly, never through set_value, so the outcome is
independent of the literal-eval function and of the text), and an absent flag
token leaves the value equal to the default. -/
theorem C6_flag_semantics :
    (∀ (le : String → Except String Value) (flag nm : String) (description : Value)
      (b : Bool) (one_of : Option (List Value)) (required : Bool) (st : AppState)
      (s : Option String),
      alGet st.argv_mappings flag =
        Option.some (match s with
          | Option.some s1 => Value.vstr s1
          | Option.none => Value.vnone) →
      ∃ st1 : AppState,
        process_cli_option le (mkFlag flag nm description (Value.vbool b) one_of required) st =
          Except.ok ({ mkFlag flag nm description (Value.vbool b) one_of required with
            value := Value.vbool (!b), processed := true }, st1)) ∧
    (∀ (le : String → Except String Value) (flag nm : String) (description : Value)
      (b : Bool) (one_of : Option (List Value)) (required : Bool) (st : AppState),
      alHasKey st.argv_mappings flag = false →
      process_cli_option le (mkFlag flag nm description (Value.vbool b) one_of required) st =
        Except.ok ({ mkFlag flag nm description (Value.vbool b) one_of required with
          processed := true }, st) ∧
      (mkFlag flag nm description (Value.vbool b) one_of required).value = Value.vbool b) := by
  constructor
  · intro le flag nm description b one_of required st s h
    have hk := alHasKey_of_alGet h
    have hrem : ∃ st1, remove_argv_entry st flag = Except.ok st1 := by
      apply remove_ok_of_str_or_none h
      cases s
      · exact Or.inr rfl
      · exact Or.inl ⟨_, rfl⟩
    rcases hrem with ⟨st1, hr⟩
    refine ⟨st1, ?_⟩
    unfold process_cli_option
    simp [mkFlag, mkOption, hk, hr, truthy]
  · intro le flag nm description b one_of required st habs
    constructor
    · unfold process_cli_option
      simp [mkFlag, mkOption, habs, required_value_is_missing, Value.isNone]
    · rfl

/-- Witness for C6: a concrete flag with default false resolved against a
token carrying junk literal text (value becomes true), and against an empty
mapping (value stays false). -/
theorem C6_witness :
    (alGet ([("--f", Value.vstr "junk")] : List (String × Value)) "--f" =
      Option.some (Value.vstr "junk") ∧
    ∃ st1 : AppState,
      process_cli_option lit_eval_stub
          (mkFlag "--f" "f" Value.vnone (Value.vbool false) Option.none false)
          ⟨["--f=junk"], [("--f", Value.vstr "junk")]⟩ =
        Except.ok ({ mkFlag "--f" "f" Value.vnone (Value.vbool false) Option.none false with
          value := Value.vbool true, processed := true }, st1)) ∧
    (alHasKey ([] : List (String × Value)) "--f" = false ∧
    process_cli_option lit_eval_stub
        (mkFlag "--f" "f" Value.vnone (Value.vbool false) Option.none false) ⟨[], []⟩ =
      Except.ok ({ mkFlag "--f" "f" Value.vnone (Value.vbool false) Option.none false with
        processed := true }, (⟨[], []⟩ : AppState)) ∧
    (mkFlag "--f" "f" Value.vnone (Value.vbool false) Option.none false).value =
      Value.vbool false) :=
  ⟨⟨rfl, C6_flag_semantics.1 lit_eval_stub "--f" "f" Value.vnone false Option.none false
      ⟨["--f=junk"], [("--f", Value.vstr "junk")]⟩ (Option.some "junk") rfl⟩,
    ⟨rfl, C6_flag_semantics.2 lit_eval_stub "--f" "f" Value.vnone false Option.none false
      ⟨[], []⟩ rfl⟩⟩

/-- C1: the dotted sub-object exemption of required_value_is_missing as seen
through per-option resolution.  For a required, unset, absent option with a
dotted name: when some mapping entry under the sibling dotted token carries a
non-null value, resolution fails with the missing-required error; when none
does, the required flag is permanently cleared and resolution succeeds.  For
a required, unset, absent option without a dot in its name, resolution always
fails with the missing-required error. -/
theorem C1_dotted_subobject_exemption :
    (∀ (le : String → Except String Value) (o : Opt) (st : AppState),
      o.processed = false → o.required = true → Value.isNone o.value = true →
      strContainsChar o.name '.' = true →
      alHasKey st.argv_mappings o.cli_option = false →
      (st.argv_mappings.any fun kv =>
        strStartsWith kv.1 (sibling_pre o.cli_option) && !(Value.isNone kv.2)) = true →
      process_cli_option le o st =
        Except.error (ResolveErr.missing_required o.cli_option o.one_of.isSome)) ∧
    (∀ (le : String → Except String Value) (o : Opt) (st : AppState),
      o.processed = false → o.required = true → Value.isNone o.value = true →
      strContainsChar o.name '.' = true →
      alHasKey st.argv_mappings o.cli_option = false →
      (st.argv_mappings.any fun kv =>
        strStartsWith kv.1 (sibling_pre o.cli_option) && !(Value.isNone kv.2)) = false →
      process_cli_option le o st =
        Except.ok ({ o with required := false, processed := true }, st)) ∧
    (∀ (le : String → Except String Value) (o : Opt) (st : AppState),
      o.processed = false → o.required = true → Value.isNone o.value = true →
      strContainsChar o.name '.' = false →
      alHasKey st.argv_mappings o.cli_option = false →
      process_cli_option le o st =
        Except.error (ResolveErr.missing_required o.cli_option o.one_of.isSome)) := by
  refine ⟨?_, ?_, ?_⟩
  · intro le o st hp hr hv hn hk ha
    unfold process_cli_option required_value_is_missing
    simp [hp, hr, hv, hn, hk, ha]
  · intro le o st hp hr hv hn hk ha
    unfold process_cli_option required_value_is_missing
    simp [hp, hr, hv, hn, hk, ha]
  · intro le o st hp hr hv hn hk
    unfold process_cli_option required_value_is_missing
    simp [hp, hr, hv, hn, hk]

/-- Concrete dotted required option for the C1 witness. -/
def c1_opt : Opt :=
  mkCliOption "--sub.b" "sub.b" Value.vnone Value.vnone Option.none true (Value.vstr "string")

/-- Concrete non-dotted required option for the C1 witness. -/
def c1_plain : Opt :=
  mkCliOption "--top" "top" Value.vnone Value.vnone Option.none true (Value.vstr "string")

/-- Witness for C1: resolving a required sub.b with only sub.a supplied fails,
with neither supplied succeeds demoting required, and a required non-dotted
option absent from input always fails. -/
theorem C1_witness :
    process_cli_option lit_eval_stub c1_opt ⟨["--sub.a=5"], [("--sub.a", Value.vstr "5")]⟩ =
      Except.error (ResolveErr.missing_required "--sub.b" false) ∧
    process_cli_option lit_eval_stub c1_opt ⟨[], []⟩ =
      Except.ok ({ c1_opt with required := false, processed := true }, (⟨[], []⟩ : AppState)) ∧
    process_cli_option lit_eval_stub c1_plain ⟨[], []⟩ =
      Except.error (ResolveErr.missing_required "--top" false) :=
  ⟨C1_dotted_subobject_exemption.1 lit_eval_stub c1_opt
      ⟨["--sub.a=5"], [("--sub.a", Value.vstr "5")]⟩ rfl rfl rfl rfl rfl rfl,
    C1_dotted_subobject_exemption.2.1 lit_eval_stub c1_opt ⟨[], []⟩ rfl rfl rfl rfl rfl rfl,
    C1_dotted_subobject_exemption.2.2 lit_eval_stub c1_plain ⟨[], []⟩ rfl rfl rfl rfl rfl⟩

/-- Concrete non-required option with a one_of constraint for the C2
counterexample. -/
def c2_opt : Opt :=
  mkCliOption "--c" "c" Value.vnone Value.vnone (Option.some [Value.vstr "a"]) false
    (Value.vstr "string")

/-- Concrete state supplying a value outside the one_of set. -/
def c2_st : AppState := ⟨["--c=z"], [("--c", Value.vstr "z")]⟩

/-- C2 counterexample: a non-required option with a one_of constraint whose
mapped value is not a member resolves successfully — no InvalidChoiceError —
refuting the claim that the one_of check applies regardless of required. -/
theorem C2_counterexample :
    one_of_failed { c2_opt with value := Value.vstr "z" } = true ∧
    process_cli_option lit_eval_stub c2_opt c2_st =
      Except.ok ({ c2_opt with value := Value.vstr "z", processed := true },
        (⟨[], []⟩ : AppState)) :=
  ⟨rfl, rfl⟩

/-- C2 (amended): the one_of membership check runs only for required options:
a present, required, non-Flag option whose coerced value is truthy and not a
member of its non-empty one_of set fails with the invalid-choice error. -/
theorem C2_one_of_requires_required (le : String → Except String Value) (o : Opt)
    (st : AppState) (v newVal : Value) (l : List Value)
    (hp : o.processed = false) (hf : o.kind ≠ OptKind.flag)
    (hv : alGet st.argv_mappings o.cli_option = Option.some v)
    (hsv : set_value le o.type v = Except.ok newVal)
    (hreq : o.required = true)
    (ht : truthy newVal = true)
    (hoo : o.one_of = Option.some l) (hl : l.isEmpty = false)
    (hmem : (l.any fun x => Value.beq x newVal) = false) :
    process_cli_option le o st = Except.error (ResolveErr.invalid_choice o.cli_option) := by
  have hk := alHasKey_of_alGet hv
  have hd := alGetD_of_alGet Value.vnone hv
  unfold process_cli_option
  simp [hp, hk, hf, hd, hsv, hreq, ht, one_of_failed, hoo, hl, hmem]

/-- Concrete required variant of the C2 option for the witness. -/
def c2r_opt : Opt :=
  mkCliOption "--c" "c" Value.vnone Value.vnone (Option.some [Value.vstr "a"]) true
    (Value.vstr "string")

/-- Witness for the amended C2: the same non-member value on the required
variant of the option fails with the invalid-choice error. -/
theorem C2_witness :
    set_value lit_eval_stub c2r_opt.type (Value.vstr "z") = Except.ok (Value.vstr "z") ∧
    process_cli_option lit_eval_stub c2r_opt c2_st =
      Except.error (ResolveErr.invalid_choice "--c") :=
  ⟨rfl, C2_one_of_requires_required lit_eval_stub c2r_opt c2_st (Value.vstr "z")
    (Value.vstr "z") [Value.vstr "a"] rfl (by decide) rfl rfl rfl rfl rfl rfl rfl⟩

/-- C9: batch resolution after all options resolved: a non-empty leftover
argument vector is reported as unexpected arguments with help rendered and a
non-zero exit status, while an empty vector means successful completion. -/
theorem C9_batch_leftover_args (le : String → Except String Value) (opts : List Opt)
    (st : AppState) (os : List Opt) (st1 : AppState)
    (hh : has_help st = false)
    (hall : process_all le opts st = Except.ok (os, st1)) :
    (st1.argv ≠ [] →
      process_cli_options le opts st = Except.error (ResolveErr.unexpected_args st1.argv) ∧
      (ResolveErr.unexpected_args st1.argv).exit_status ≠ 0 ∧
      (ResolveErr.unexpected_args st1.argv).displays_help = true) ∧
    (st1.argv = [] → process_cli_options le opts st = Except.ok (os, st1)) := by
  constructor
  · intro hne
    have hlen : st1.argv.length > 0 := List.length_pos.mpr hne
    refine ⟨?_, by simp [ResolveErr.exit_status], rfl⟩
    unfold process_cli_options
    simp [hh, hall, hlen]
  · intro he
    unfold process_cli_options
    simp [hh, hall, he]

/-- Witness for C9: an unknown token that no option consumes yields the
unexpected-arguments error with exit status 1, and an empty vector resolves
cleanly. -/
theorem C9_witness :
    (process_cli_options lit_eval_stub [] ⟨["--unknown=1"], [("--unknown", Value.vstr "1")]⟩ =
      Except.error (ResolveErr.unexpected_args ["--unknown=1"]) ∧
    (ResolveErr.unexpected_args ["--unknown=1"]).exit_status ≠ 0) ∧
    process_cli_options lit_eval_stub [] ⟨[], []⟩ =
      Except.ok ([], (⟨[], []⟩ : AppState)) := by
  have h1 := (C9_batch_leftover_args lit_eval_stub []
    ⟨["--unknown=1"], [("--unknown", Value.vstr "1")]⟩ []
    ⟨["--unknown=1"], [("--unknown", Value.vstr "1")]⟩ rfl rfl).1 (by simp)
  have h2 := (C9_batch_leftover_args lit_eval_stub [] ⟨[], []⟩ [] ⟨[], []⟩ rfl rfl).2 rfl
  exact ⟨⟨h1.1, h1.2.1⟩, h2⟩

/-- A token whose option part is one of the two verbosity controls. -/
def isLogTok (a : String) : Bool :=
  (splitEq a).1 == "--debug" || (splitEq a).1 == "--log-level"

/-- Inserting under a different key preserves the absence of a key. -/
theorem alHasKey_alInsert_ne {α : Type} {m : List (String × α)} {k0 k : String} (v : α)
    (hm : alHasKey m k = false) (hne : (k0 == k) = false) :
    alHasKey (alInsert m k0 v) k = false := by
  unfold alInsert
  split
  · unfold alHasKey at hm ⊢
    simp only [List.any_map, List.any_eq_false, Function.comp] at hm ⊢
    intro kv hkv
    by_cases hk0 : (kv.1 == k0) = true
    · simp [hk0, hne]
    · simp only [hk0]
      simp only [Bool.false_eq_true, if_false]
      exact hm kv hkv
  · unfold alHasKey at hm ⊢
    simp [List.any_append, hm, hne]

/-- The foldl that tracks the most recent verbosity token computes the last
element of the filtered token list. -/
theorem foldl_last_log (argv : List String) :
    ∀ lo : Option String,
      argv.foldl (fun acc x => if isLogTok x then Option.some x else acc) lo =
        (match (argv.filter fun x => isLogTok x).getLast? with
          | Option.some t => Option.some t
          | Option.none => lo) := by
  induction argv with
  | nil => intro lo; rfl
  | cons a rest ih =>
    intro lo
    by_cases ha : isLogTok a = true
    · simp only [List.foldl_cons, List.filter_cons, ha, if_true, ih]
      rw [List.getLast?_cons]
      rcases hfr : (rest.filter fun x => isLogTok x).getLast? with _ | t <;>
        simp [hfr, List.getLastD_eq_getLast?]
    · simp only [List.foldl_cons, List.filter_cons, ha, Bool.false_eq_true, if_false]
      exact ih lo

/-- The ingest loop over a vector free of file tokens: the noted file token is
unchanged, the noted log token tracks the most recent verbosity token, and
the two verbosity option names never enter the mapping. -/
theorem ingest_loop_no_file_spec (fs : String → Option Value) :
    ∀ (argv : List String) (m : List (String × Value)) (lo fo : Option String)
      (m' : List (String × Value)) (lo' fo' : Option String),
      (∀ a ∈ argv, (splitEq a).1 ≠ "--file") →
      ingest_loop fs argv m lo fo = Except.ok (m', lo', fo') →
      fo' = fo ∧
      lo' = argv.foldl (fun acc x => if isLogTok x then Option.some x else acc) lo ∧
      (alHasKey m "--debug" = false → alHasKey m' "--debug" = false) ∧
      (alHasKey m "--log-level" = false → alHasKey m' "--log-level" = false) := by
  intro argv
  induction argv with
  | nil =>
    intro m lo fo m' lo' fo' hnf h
    unfold ingest_loop at h
    simp only [Except.ok.injEq, Prod.mk.injEq] at h
    obtain ⟨rfl, rfl, rfl⟩ := h
    exact ⟨rfl, rfl, id, id⟩
  | cons a rest ih =>
    intro m lo fo m' lo' fo' hnf h
    have hnf_rest : ∀ x ∈ rest, (splitEq x).1 ≠ "--file" :=
      fun x hx => hnf x (List.mem_cons_of_mem a hx)
    unfold ingest_loop at h
    by_cases hd : ((splitEq a).1 == "--debug") = true
    · simp only [hd, if_true] at h
      obtain ⟨h1, h2, h3, h4⟩ := ih m (Option.some a) fo m' lo' fo' hnf_rest h
      refine ⟨h1, ?_, h3, h4⟩
      have hlt : isLogTok a = true := by unfold isLogTok; rw [hd]; rfl
      rw [h2, List.foldl_cons, hlt]; simp
    · simp only [Bool.not_eq_true] at hd
      simp only [hd, Bool.false_eq_true, if_false] at h
      by_cases hl : ((splitEq a).1 == "--log-level") = true
      · simp only [hl, if_true] at h
        by_cases hv : valid_log_level (splitEq a).2 = true
        · simp only [hv, if_true] at h
          obtain ⟨h1, h2, h3, h4⟩ := ih m (Option.some a) fo m' lo' fo' hnf_rest h
          refine ⟨h1, ?_, h3, h4⟩
          have hlt : isLogTok a = true := by unfold isLogTok; rw [hl]; simp
          rw [h2, List.foldl_cons, hlt]; simp
        · simp only [Bool.not_eq_true] at hv
          simp only [hv, Bool.false_eq_true, if_false] at h
          exact Except.noConfusion h
      · simp only [Bool.not_eq_true] at hl
        simp only [hl, Bool.false_eq_true, if_false] at h
        have hf : ((splitEq a).1 == "--file") = false :=
          beq_eq_false_iff_ne.mpr (hnf a (List.mem_cons_self a rest))
        simp only [hf, Bool.false_eq_true, if_false] at h
        obtain ⟨h1, h2, h3, h4⟩ := ih _ lo fo m' lo' fo' hnf_rest h
        have hlt : isLogTok a = false := by unfold isLogTok; rw [hd, hl]; rfl
        refine ⟨h1, ?_, ?_, ?_⟩
        · rw [h2, List.foldl_cons, hlt]; simp
        · intro hm
          exact h3 (alHasKey_alInsert_ne _ hm hd)
        · intro hm
          exact h4 (alHasKey_alInsert_ne _ hm hl)

/-- C4 (amended): ingestion keeps every debug and log-level token out of the
Argument Mapping, but the source notes only the most recent such token in a
single variable, so exactly one occurrence of the last-seen verbosity token
is removed from the Argument Vector; earlier verbosity tokens survive.  Shown
for vectors without file tokens (a loaded file could itself inject mapping
keys named like the verbosity options). -/
theorem C4_verbosity_tokens (fs : String → Option Value) (argv : List String)
    (st' : AppState)
    (hnf : ∀ a ∈ argv, (splitEq a).1 ≠ "--file")
    (h : get_argv_mappings fs argv = Except.ok st') :
    (alHasKey st'.argv_mappings "--debug" = false ∧
      alHasKey st'.argv_mappings "--log-level" = false) ∧
    (∀ a, (argv.filter fun x => isLogTok x).getLast? = Option.some a →
      st'.argv = argv.erase a) ∧
    ((argv.filter fun x => isLogTok x) = [] → st'.argv = argv) := by
  unfold get_argv_mappings at h
  rcases hi : ingest_loop fs argv [] Option.none Option.none with e | r
  · rw [hi] at h
    exact Except.noConfusion h
  · obtain ⟨m, lo, fo⟩ := r
    rw [hi] at h
    dsimp only at h
    simp only [Except.ok.injEq] at h
    obtain ⟨h1, h2, h3, h4⟩ :=
      ingest_loop_no_file_spec fs argv [] Option.none Option.none m lo fo hnf hi
    subst h1
    subst h
    refine ⟨⟨h3 rfl, h4 rfl⟩, ?_, ?_⟩
    · intro a ha
      have hlo : lo = Option.some a := by rw [h2, foldl_last_log, ha]
      rw [hlo]
    · intro ha
      have hlo : lo = Option.none := by rw [h2, foldl_last_log, ha]; rfl
      rw [hlo]

/-- C4 counterexample: with both a debug token and a log-level token present,
only the later one is removed; the debug token survives ingestion inside the
Argument Vector, refuting the claim that every such token is removed. -/
theorem C4_counterexample :
    get_argv_mappings fs_stub ["--debug", "--log-level=INFO"] =
      Except.ok (⟨["--debug"], []⟩ : AppState) ∧
    "--debug" ∈ ["--debug"] :=
  ⟨rfl, by simp⟩

/-- Witness for the amended C4: one verbosity token in the vector is removed
and kept out of the mapping. -/
theorem C4_witness :
    get_argv_mappings fs_stub ["--a=1", "--debug"] =
      Except.ok (⟨["--a=1"], [("--a", Value.vstr "1")]⟩ : AppState) ∧
    alHasKey [("--a", Value.vstr "1")] "--debug" = false ∧
    alHasKey [("--a", Value.vstr "1")] "--log-level" = false ∧
    (["--a=1"] : List String) = ["--a=1", "--debug"].erase "--debug" := by
  have h := C4_verbosity_tokens fs_stub ["--a=1", "--debug"]
    ⟨["--a=1"], [("--a", Value.vstr "1")]⟩ (by decide) rfl
  exact ⟨rfl, h.1.1, h.1.2, h.2.1 "--debug" rfl⟩

/-- A successful resolution of an unprocessed option whose token is present
in the mapping ends in the state computed by entry removal. -/
theorem process_present_state {le : String → Except String Value} {o : Opt} {st : AppState}
    {o' : Opt} {st' : AppState}
    (hp : o.processed = false)
    (hk : alHasKey st.argv_mappings o.cli_option = true)
    (h : process_cli_option le o st = Except.ok (o', st')) :
    remove_argv_entry st o.cli_option = Except.ok st' := by
  unfold process_cli_option at h
  simp only [hp, Bool.false_eq_true, if_false, hk, if_true] at h
  by_cases hf : o.kind = OptKind.flag
  · rw [if_pos hf] at h
    rcases hr : remove_argv_entry st o.cli_option with e | st1 <;> rw [hr] at h <;>
      dsimp only at h
    · exact Except.noConfusion h
    · simp only [Except.ok.injEq, Prod.mk.injEq] at h
      rw [h.2]
  · rw [if_neg hf] at h
    rcases hs : set_value le o.type (alGetD st.argv_mappings o.cli_option Value.vnone)
      with msg | newVal <;> rw [hs] at h <;> dsimp only at h
    · exact Except.noConfusion h
    · by_cases h1 : (o.required && !truthy newVal) = true
      · rw [if_pos h1] at h
        exact Except.noConfusion h
      · rw [if_neg h1] at h
        by_cases h2 :
            (o.required && one_of_failed { o with value := newVal, processed := false }) = true
        · rw [if_pos h2] at h
          exact Except.noConfusion h
        · rw [if_neg h2] at h
          rcases hr : remove_argv_entry st o.cli_option with e | st1 <;> rw [hr] at h <;>
            dsimp only at h
          · exact Except.noConfusion h
          · simp only [Except.ok.injEq, Prod.mk.injEq] at h
            rw [h.2]

/-- Concrete option for the C5 counterexample. -/
def c5_opt : Opt :=
  mkCliOption "--x" "x" Value.vnone Value.vnone Option.none false (Value.vstr "string")

/-- C5 counterexample: a token with an equals sign and empty value.  The
mapped value is the empty (falsy) string, so removal reconstructs the bare
token name, which is not the original token: the mapping entry is consumed
but the token remains in the Argument Vector, refuting the claim that a
consumed option disappears from both structures. -/
theorem C5_counterexample :
    process_cli_option lit_eval_stub c5_opt ⟨["--x="], [("--x", Value.vstr "")]⟩ =
      Except.ok ({ c5_opt with value := Value.vstr "", processed := true },
        (⟨["--x="], []⟩ : AppState)) ∧
    "--x=" ∈ ["--x="] :=
  ⟨rfl, by simp⟩

/-- C5 (amended): the consumed option disappears from both structures when
the original token reconstructs exactly, namely a bare token mapped to None
or an equals-sign token with a non-empty value; for a token of the form
name-equals-empty the mapping entry is removed but the token survives in the
vector (see the counterexample). -/
theorem C5_consumed_removed (le : String → Except String Value) (o : Opt)
    (nm tok : String) (val : Value) (o' : Opt) (stF : AppState)
    (hp : o.processed = false) (hcli : o.cli_option = nm)
    (hshape : (val = Value.vnone ∧ tok = nm) ∨
      (∃ v, val = Value.vstr v ∧ v ≠ "" ∧ tok = nm ++ "=" ++ v))
    (h : process_cli_option le o ⟨[tok], [(nm, val)]⟩ = Except.ok (o', stF)) :
    stF.argv = [] ∧ stF.argv_mappings = [] := by
  have hk : alHasKey ([(nm, val)] : List (String × Value)) o.cli_option = true := by
    simp [alHasKey, hcli]
  have hrem := process_present_state hp hk h
  rw [hcli] at hrem
  have hcomp : remove_argv_entry ⟨[tok], [(nm, val)]⟩ nm = Except.ok ⟨[], []⟩ := by
    rcases hshape with ⟨rfl, rfl⟩ | ⟨v, rfl, hv, rfl⟩
    · simp [remove_argv_entry, alHasKey, alGet, alGetD, truthy, alErase]
    · simp [remove_argv_entry, alHasKey, alGet, alGetD, truthy, alErase, hv]
  rw [hcomp] at hrem
  simp only [Except.ok.injEq] at hrem
  rw [← hrem]
  exact ⟨rfl, rfl⟩

/-- Concrete option for the C5 witness. -/
def c5w_opt : Opt :=
  mkCliOption "--y" "y" Value.vnone Value.vnone Option.none false (Value.vstr "string")

/-- Witness for the amended C5: a concrete resolution of a non-empty-valued
token, and the theorem applied to it showing the final state holds the token
in neither structure. -/
theorem C5_witness :
    process_cli_option lit_eval_stub c5w_opt ⟨["--y=v"], [("--y", Value.vstr "v")]⟩ =
      Except.ok ({ c5w_opt with value := Value.vstr "v", processed := true },
        (⟨[], []⟩ : AppState)) ∧
    (⟨[], []⟩ : AppState).argv = [] ∧ (⟨[], []⟩ : AppState).argv_mappings = [] :=
  ⟨rfl, C5_consumed_removed lit_eval_stub c5w_opt "--y" "--y=v" (Value.vstr "v")
    { c5w_opt with value := Value.vstr "v", processed := true } ⟨[], []⟩ rfl rfl
    (Or.inr ⟨"v", rfl, by decide, rfl⟩) rfl⟩

/-- The file system for the C3 evaluation: meta.json holds a nested object
under key a followed by a scalar under key c. -/
def c3_fs : String → Option Value := fun n =>
  if n == "meta.json" then
    Option.some (Value.vdict [("a", Value.vdict [("b", Value.vint 1)]), ("c", Value.vint 2)])
  else Option.none

/-- C3 (code bug): loading meta.json produces the synthetic name entry and
the flattened a.b entry only: the early return inside the key loop of
load_argv_mappings_from_json abandons the remaining items once the first
object-valued key is entered, so the top-level key c is silently dropped and
no mapping entry for it exists. -/
theorem C3_file_load_drops_key :
    load_argv_mappings_from_file c3_fs "meta.json" [] =
      Except.ok [("--name", Value.vstr "meta"), ("--a.b", Value.vint 1)] ∧
    alHasKey [("--name", Value.vstr "meta"), ("--a.b", Value.vint 1)] "--c" = false := by
  constructor
  · simp [load_argv_mappings_from_file, load_argv_mappings_from_json, c3_fs, alInsert,
      alHasKey, basename, before_first_dot]
  · rfl

/-- The sub-object stanza of the C8 schema: an object-typed property holding
one property x (an arbitrary stanza) listed in its required list. -/
def c8_sub (vd : List (String × Value)) : List (String × Value) :=
  [("type", Value.vstr "object"),
   ("properties", Value.vdict [("x", Value.vdict vd)]),
   ("required", Value.vlist [Value.vstr "x"])]

/-- The C8 schema shape: a single top-level property sub holding the nested
required property x. -/
def c8_schema (vd : List (String × Value)) : Value :=
  Value.vdict [("properties", Value.vdict [("sub", Value.vdict (c8_sub vd))])]

/-- C8: compiling a schema with a required property x nested under a
non-metadata object property sub yields the option named sub.x with required
true; the required-marking loop never marks the literal names schema_name or
metadata; and a required name with no corresponding emitted option makes the
compiler fail loudly instead of silently ignoring it. -/
theorem C8_required_round_trip :
    (∀ (vd : List (String × Value)) (t : String),
      alGet vd "type" = Option.some (Value.vstr t) → t ≠ "object" →
      schema_to_options (c8_schema vd) 0 Option.none =
        Except.ok [("sub.x", { mkMetadataSchemaProperty "sub.x" vd with required := true })]) ∧
    (∀ (opts : List (String × Opt)) (rest : List Value) (pfx : Option String),
      mark_required_loop (Value.vstr "schema_name" :: rest) opts pfx =
        mark_required_loop rest opts pfx ∧
      mark_required_loop (Value.vstr "metadata" :: rest) opts pfx =
        mark_required_loop rest opts pfx) ∧
    (∀ (opts : List (String × Opt)) (rest : List Value) (pfx : Option String) (rn : String),
      rn ≠ "schema_name" → rn ≠ "metadata" →
      alHasKey opts (prefixed pfx rn) = false →
      mark_required_loop (Value.vstr rn :: rest) opts pfx =
        Except.error "AttributeError") := by
  refine ⟨?_, ?_, ?_⟩
  · intro vd t ht hto
    have e4 : schema_props_loop [("x", Value.vdict vd)] 1 (Option.some "sub") [] =
        Except.ok [("sub.x", mkMetadataSchemaProperty "sub.x" vd)] := by
      simp [schema_props_loop, ht, hto, prefixed, alInsert, alHasKey, Value.beq]
    have e3 : schema_to_options (Value.vdict (c8_sub vd)) 1 (Option.some "sub") =
        Except.ok [("sub.x", { mkMetadataSchemaProperty "sub.x" vd with required := true })] := by
      simp only [schema_to_options]
      show (match schema_props_loop [("x", Value.vdict vd)] 1 (Option.some "sub") [] with
        | Except.error e => Except.error e
        | Except.ok opts => mark_required (alGet (c8_sub vd) "required") opts
            (Option.some "sub")) = _
      rw [e4]
      simp [mark_required, mark_required_loop, prefixed, alModify, alHasKey, alGet,
        Value.beq, c8_sub]
    have e2 : schema_props_loop [("sub", Value.vdict (c8_sub vd))] 0 Option.none [] =
        Except.ok [("sub.x", { mkMetadataSchemaProperty "sub.x" vd with required := true })] := by
      simp only [c8_sub] at e3
      simp [schema_props_loop, e3, prefixed, alGet, alUpdate, alInsert, alHasKey,
        Value.beq, c8_sub]
    simp only [c8_schema, schema_to_options]
    show (match schema_props_loop [("sub", Value.vdict (c8_sub vd))] 0 Option.none [] with
      | Except.error e => Except.error e
      | Except.ok opts => mark_required
          (alGet [("properties", Value.vdict [("sub", Value.vdict (c8_sub vd))])] "required")
          opts Option.none) = _
    rw [e2]
    simp [mark_required, alGet]
  · intro opts rest pfx
    constructor <;> simp [mark_required_loop, Value.beq]
  · intro opts rest pfx rn h1 h2 hk
    simp [mark_required_loop, Value.beq, h1, h2, hk]

/-- Witness for C8: the round trip at a concrete string-typed x stanza, and
the loud failure of marking a required name with no emitted option. -/
theorem C8_witness :
    schema_to_options (c8_schema [("type", Value.vstr "string")]) 0 Option.none =
      Except.ok [("sub.x", { mkMetadataSchemaProperty "sub.x"
        [("type", Value.vstr "string")] with required := true })] ∧
    mark_required_loop [Value.vstr "missing"] [] Option.none =
      Except.error "AttributeError" :=
  ⟨C8_required_round_trip.1 [("type", Value.vstr "string")] "string" rfl (by decide),
    C8_required_round_trip.2.2 [] [] Option.none "missing" (by decide) (by decide) rfl⟩

end Elyra
